import Mathlib

/-!
Shallow embedding of the dataset-reconciliation pipeline in `src/process.py`
(together with the link-table deduplication in `src/load.py`).

Tables are embedded as Lean lists of typed records; nullable pandas cells
(`NaN` / `pd.NA`) are embedded as `Option`; functions that may raise are
embedded with `Except`.  Library collaborators whose internals are not part
of this repository (`pd.to_numeric`, `pd.to_datetime`, `ast.literal_eval`)
are taken as parameters (an `Oracles` record), so every theorem quantifies
over all of their possible behaviours.
-/

/-- Model of the Python values `ast.literal_eval` can produce and that the
genre parser inspects: `None`, booleans, integers, strings, lists and
(string-keyed) dicts.  Keys that are not strings can never match the
lookup key `"name"` used by `parse_genres`, so restricting dict keys to
strings loses nothing observable for the parser. -/
inductive PyVal where
  | pnone
  | pbool (b : Bool)
  | pint (n : Int)
  | pstr (s : String)
  | plist (xs : List PyVal)
  | pdict (kvs : List (String × PyVal))

/-- Python truthiness (`bool(v)`) on the modelled values: `None` is falsy,
numbers are truthy iff nonzero, strings/lists/dicts iff nonempty. -/
def truthy : PyVal → Bool
  | .pnone => false
  | .pbool b => b
  | .pint n => n != 0
  | .pstr s => !(s.isEmpty)
  | .plist xs => !xs.isEmpty
  | .pdict kvs => !kvs.isEmpty

/-- Python `d.get(key)`: first binding of the key, `None` when absent. -/
def dGet (kvs : List (String × PyVal)) (key : String) : PyVal :=
  match kvs.lookup key with
  | some v => v
  | none => .pnone

/-- Python `d.get(key, default)`. -/
def dGetD (kvs : List (String × PyVal)) (key : String) (dflt : PyVal) : PyVal :=
  match kvs.lookup key with
  | some v => v
  | none => dflt

/-- Python iteration `for d in lst`: lists yield their elements, strings
yield their characters as one-character strings, dicts yield their keys;
every other value raises `TypeError` (modelled as `Except.error`). -/
def pyIter : PyVal → Except Unit (List PyVal)
  | .plist xs => .ok xs
  | .pstr s => .ok (s.data.map (fun c => .pstr c.toString))
  | .pdict kvs => .ok (kvs.map (fun kv => .pstr kv.1))
  | _ => .error ()

/-- Elements obtained by iterating a Python value; empty when iteration
raises (in `parse_genres` that exception is swallowed by the bare
`except:`, so the observable result is the same empty list). -/
def pyElems (v : PyVal) : List PyVal :=
  match pyIter v with
  | .ok xs => xs
  | .error _ => []

/-- Predicate for a record that contributes to `parse_genres`' output:
`isinstance(d, dict) and d.get("name")` (a dict whose `name` value is
truthy). -/
def goodRec : PyVal → Bool
  | .pdict kvs => truthy (dGet kvs "name")
  | _ => false

/-- Embedding of `parse_genres` (src/process.py lines 6-21).  The
structural parser `ast.literal_eval` is a parameter `lev`; the bare
`try/except` that converts any exception to `[]` is reflected by the
function being total with result type `List PyVal`. -/
def parse_genres (lev : String → Except Unit PyVal) : PyVal → List PyVal
  | .pstr s =>
      if s.isEmpty then []
      else
        match lev s with
        | .error _ => []
        | .ok lst =>
            match pyIter lst with
            | .error _ => []
            | .ok ds =>
                ds.filterMap (fun d =>
                  match d with
                  | .pdict kvs =>
                      if truthy (dGet kvs "name") then some (dGetD kvs "name" (.pstr "")) else none
                  | _ => none)
  | _ => []

/-- Lexicographic codepoint comparison of character lists, the order
Python's `sorted` uses on strings. -/
def pyCharListLe : List Char → List Char → Bool
  | [], _ => true
  | _ :: _, [] => false
  | a :: as, b :: bs =>
      if a.toNat < b.toNat then true
      else if b.toNat < a.toNat then false
      else pyCharListLe as bs

/-- Python string comparison `a <= b`: codepoint-lexicographic. -/
def pyStrLe (a b : String) : Bool := pyCharListLe a.data b.data

/-- Oracles for the pandas/stdlib collaborators used by the normalizer,
whose implementations are not part of this repository.  `toNumInt` models
elementwise `pd.to_numeric(·, errors="coerce").astype("Int64")` (null on
failure), `toDate` models elementwise `pd.to_datetime(·, errors="coerce")`
(dates as abstract integers, null on failure), `yearOf` models `.dt.year`
on a non-null date, `toNum` models elementwise
`pd.to_numeric(·, errors="coerce")`, and `lev` models
`ast.literal_eval`. -/
structure Oracles where
  toNumInt : PyVal → Option Int
  toDate : PyVal → Option Int
  yearOf : Int → Int
  toNum : PyVal → Option Rat
  lev : String → Except Unit PyVal

/-- Raw metadata row: the cells of the nine required columns.  Extra input
columns are never read after the projection `df[required]`, so they are
not modelled. -/
structure RawRow where
  id : PyVal
  imdb_id : PyVal
  title : PyVal
  original_language : PyVal
  release_date : PyVal
  runtime : PyVal
  budget : PyVal
  revenue : PyVal
  genres : PyVal

/-- Raw metadata table: its column-name list (the schema the validator
checks) and its rows. -/
structure RawTable where
  cols : List String
  rows : List RawRow

/-- Normalized catalog row produced by `filter_transform_metadata`:
nullable typed fields plus the parsed `genre_lst`. -/
structure NormRow where
  id : Option Int
  imdb_id : Option String
  title : Option String
  original_language : Option String
  release_date : Option Int
  year : Option Int
  runtime : Option Rat
  budget : Option Rat
  revenue : Option Rat
  genre_lst : List PyVal

/-- Required columns of `filter_transform_metadata`
(src/process.py line 38). -/
def requiredCols : List String :=
  ["id", "imdb_id", "title", "original_language", "release_date",
   "runtime", "budget", "revenue", "genres"]

/-- Embedding of `missing = set(required) - set(df.columns)` followed by
`sorted(missing)` (src/process.py lines 39-41): the required columns
absent from the schema, in ascending lexicographic order. -/
def missingCols (df : RawTable) : List String :=
  List.insertionSort (fun a b => pyStrLe a b = true)
    (requiredCols.filter (fun c => !(df.cols.contains c)))

/-- Pandas `.str.strip()` on one cell: strings are trimmed, every other
value (including `NaN`) becomes null. -/
def stripCell : PyVal → Option String
  | .pstr s => some s.trim
  | _ => none

/-- Row filter of src/process.py line 49: keep a row iff its coerced `id`
is non-null and a member of `movie_ids` (pandas `isin` is false on
`pd.NA`). -/
def keepRow (oc : Oracles) (movie_ids : List Int) (row : RawRow) : Bool :=
  match oc.toNumInt row.id with
  | some n => movie_ids.contains n
  | none => false

/-- Per-row transformation of src/process.py lines 45-62: coerced `id`,
parsed date and derived null-propagating `year`, numeric coercions,
whitespace-trimmed string fields, and the parsed genre list. -/
def transformRow (oc : Oracles) (row : RawRow) : NormRow :=
  let rd := oc.toDate row.release_date
  { id := oc.toNumInt row.id
    imdb_id := stripCell row.imdb_id
    title := stripCell row.title
    original_language := stripCell row.original_language
    release_date := rd
    year := rd.map oc.yearOf
    runtime := oc.toNum row.runtime
    budget := oc.toNum row.budget
    revenue := oc.toNum row.revenue
    genre_lst := parse_genres oc.lev row.genres }

/-- Ordering used by `sort_values("id")`: ascending on `id`, nulls last
(after the `isin` filter no null ids remain, so the null branch is
unreachable in practice). -/
def normRowLe (a b : NormRow) : Bool :=
  match a.id, b.id with
  | some x, some y => decide (x ≤ y)
  | some _, none => true
  | none, some _ => false
  | none, none => true

/-- Embedding of `filter_transform_metadata` (src/process.py lines 24-65).
The result is `Except`: `error` carries the sorted missing-column list of
the raised `KeyError`, and because the check precedes everything else, an
error means no row processing has happened.  The surviving rows are
transformed and sorted by `id` ascending. -/
def filter_transform_metadata (oc : Oracles) (df : RawTable)
    (movie_ids : List Int) : Except (List String) (List NormRow) :=
  let missing := missingCols df
  if missing.isEmpty then
    .ok (List.insertionSort (fun a b => normRowLe a b = true)
      ((df.rows.filter (keepRow oc movie_ids)).map (transformRow oc)))
  else
    .error missing

/-- Concrete oracle instance used by witnesses: integer cells coerce to
their value, everything else to null; dates never parse; the structural
parser always fails. -/
def ocTest : Oracles :=
  { toNumInt := fun v => match v with | .pint n => some n | _ => none
    toDate := fun _ => none
    yearOf := fun y => y
    toNum := fun _ => none
    lev := fun _ => .error () }

/-- Concrete raw table missing the `genres` column. -/
def rawDfMissing : RawTable :=
  { cols := ["id", "imdb_id", "title", "original_language", "release_date",
             "runtime", "budget", "revenue"]
    rows := [] }

/-- Concrete raw row whose `id` cell is the integer 1. -/
def rawRowGood : RawRow :=
  { id := .pint 1, imdb_id := .pstr " tt0111161 ", title := .pstr "A",
    original_language := .pstr "en", release_date := .pstr "1994-09-23",
    runtime := .pint 142, budget := .pint 25, revenue := .pint 28,
    genres := .pstr "x" }

/-- Concrete raw row whose `id` cell fails integer coercion. -/
def rawRowBad : RawRow :=
  { id := .pstr "oops", imdb_id := .pnone, title := .pnone,
    original_language := .pnone, release_date := .pnone,
    runtime := .pnone, budget := .pnone, revenue := .pnone,
    genres := .pnone }

/-- Concrete raw table with a complete schema, one surviving row and one
row whose id fails coercion. -/
def rawDf1 : RawTable :=
  { cols := requiredCols, rows := [rawRowGood, rawRowBad] }

/-- Output of the normalizer on `rawDf1` with target ids `[1]`. -/
def normOut1 : List NormRow :=
  List.insertionSort (fun a b => normRowLe a b = true)
    ((rawDf1.rows.filter (keepRow ocTest [1])).map (transformRow ocTest))

/-- Vocabulary computed by `MultiLabelBinarizer.fit` (`mlb.classes_`): the
sorted distinct labels occurring across the batch. -/
def mlbClasses (batch : List (List String)) : List String :=
  List.insertionSort (fun a b => pyStrLe a b = true) batch.flatten.dedup

/-- Embedding of `one_hot_encode_genres` (src/process.py lines 67-77):
every row keeps its other columns (the payload `α`) and its `genre_lst`
is replaced by one 0/1 indicator per vocabulary entry; the vocabulary
(the indicator column names, in order) is returned alongside. -/
def one_hot_encode_genres {α : Type} (rows : List (α × List String)) :
    List String × List (α × List Int) :=
  let classes := mlbClasses (rows.map Prod.snd)
  (classes,
    rows.map (fun rg => (rg.1, classes.map (fun c => if c ∈ rg.2 then 1 else 0))))

/-- Concrete expander batch: one row with a genre, one with none. -/
def expRows : List (Nat × List String) := [(0, ["Drama"]), (1, [])]

/-- Python `str.strip()`: drop whitespace from both ends (embedded on the
character list so that it evaluates inside the kernel). -/
def pyStrip (s : String) : String :=
  ⟨((s.data.dropWhile Char.isWhitespace).reverse.dropWhile Char.isWhitespace).reverse⟩

/-- MovieLens link row, as produced by `load_movielens_links`
(src/load.py lines 42-53): every column cast to nullable Int64. -/
structure LinkRow where
  movieId : Option Int
  imdbId : Option Int
  tmdbId : Option Int
deriving DecidableEq

/-- Expanded catalog row passed to the reconciler (`meta_with_genres`).
Its `id` is the column `merge_datasets` renames to `tmdbId`
(src/process.py line 88); `genreVals` are the non-null 0/1 indicator
values, aligned with the table's indicator column names. -/
structure MetaRow where
  id : Option Int
  imdb_id : Option String
  title : Option String
  original_language : Option String
  release_date : Option Int
  year : Option Int
  runtime : Option Rat
  budget : Option Rat
  revenue : Option Rat
  genreVals : List Int
deriving DecidableEq

/-- Expanded catalog table: indicator column names plus rows. -/
structure MetaTable where
  genreCols : List String
  rows : List MetaRow
deriving DecidableEq

/-- IMDb rating row (title.ratings.tsv). -/
structure RatingRow where
  tconst : Option String
  averageRating : Option Rat
  numVotes : Option Rat
deriving DecidableEq

/-- Row of the intermediate table after the first left merge
(src/process.py line 90): link columns plus nullable catalog columns. -/
structure Merged1 where
  movieId : Option Int
  linkImdbId : Option Int
  tmdbId : Option Int
  imdb_id : Option String
  title : Option String
  original_language : Option String
  release_date : Option Int
  year : Option Int
  runtime : Option Rat
  budget : Option Rat
  revenue : Option Rat
  genreVals : List (Option Int)
deriving DecidableEq

/-- Final reconciled row after dropping `imdbId`/`tconst` and the renames
of src/process.py lines 97-98: the published `imdbId` is the catalog's
`imdb_id` column. -/
structure MergedRow where
  movieId : Option Int
  tmdbId : Option Int
  imdbId : Option String
  title : Option String
  original_language : Option String
  release_date : Option Int
  year : Option Int
  runtime : Option Rat
  budget : Option Rat
  revenue : Option Rat
  genreVals : List (Option Int)
  imdb_averageRating : Option Rat
  imdb_numVotes : Option Rat
deriving DecidableEq

/-- First-seen exact-row deduplication, pandas `drop_duplicates()` as
applied to the link table in `load_movielens_links` (src/load.py
line 53). -/
def dedupLinksAux (seen : List LinkRow) : List LinkRow → List LinkRow
  | [] => []
  | r :: rs =>
      if r ∈ seen then dedupLinksAux seen rs
      else r :: dedupLinksAux (r :: seen) rs

/-- Deduplicated link table (`links.drop_duplicates()`). -/
def dropDuplicateRows (links : List LinkRow) : List LinkRow :=
  dedupLinksAux [] links

/-- First-seen deduplication on the `tmdbId` key, pandas
`drop_duplicates(subset=["tmdbId"], keep="first")`. -/
def dedupMetaAux (seen : List (Option Int)) : List MetaRow → List MetaRow
  | [] => []
  | r :: rs =>
      if r.id ∈ seen then dedupMetaAux seen rs
      else r :: dedupMetaAux (r.id :: seen) rs

/-- Catalog-key preparation of src/process.py line 89: drop rows with a
null `tmdbId`, then deduplicate on `tmdbId` keeping the first
occurrence. -/
def dedupMetaRows (rows : List MetaRow) : List MetaRow :=
  dedupMetaAux [] (rows.filter (fun r => r.id.isSome))

/-- Generic pandas-style left join step: every left row is preserved;
a row with no right match yields one null-extended row, a row with
matches yields one row per match (src/process.py lines 90 and 95,
`how="left"`). -/
def leftExtend {β γ δ : Type} (matchesOf : β → List γ) (mkNull : β → δ)
    (mkJoin : β → γ → δ) (bs : List β) : List δ :=
  bs.flatMap (fun b =>
    match matchesOf b with
    | [] => [mkNull b]
    | ms => ms.map (mkJoin b))

/-- Null-extended row for a link with no catalog match: every
catalog-derived field, including each of the `n` genre indicator cells,
is null. -/
def mkUnmatched1 (n : Nat) (l : LinkRow) : Merged1 :=
  { movieId := l.movieId, linkImdbId := l.imdbId, tmdbId := l.tmdbId,
    imdb_id := none, title := none, original_language := none,
    release_date := none, year := none, runtime := none, budget := none,
    revenue := none, genreVals := List.replicate n none }

/-- Joined row for a link matching catalog row `m`. -/
def mkMatched1 (l : LinkRow) (m : MetaRow) : Merged1 :=
  { movieId := l.movieId, linkImdbId := l.imdbId, tmdbId := l.tmdbId,
    imdb_id := m.imdb_id, title := m.title,
    original_language := m.original_language,
    release_date := m.release_date, year := m.year, runtime := m.runtime,
    budget := m.budget, revenue := m.revenue,
    genreVals := m.genreVals.map some }

/-- Projection/rename step of src/process.py lines 97-98: drop the link
table's `imdbId` and the temporary `tconst`, rename `imdb_id` to
`imdbId` and attach the rating columns. -/
def finalRow (m : Merged1) (ar nv : Option Rat) : MergedRow :=
  { movieId := m.movieId, tmdbId := m.tmdbId, imdbId := m.imdb_id,
    title := m.title, original_language := m.original_language,
    release_date := m.release_date, year := m.year, runtime := m.runtime,
    budget := m.budget, revenue := m.revenue, genreVals := m.genreVals,
    imdb_averageRating := ar, imdb_numVotes := nv }

/-- Effect of src/process.py line 94 on the caller's rating table: the
`tconst` column is overwritten in place with its whitespace-stripped
value (`.str.strip()` maps null to null). -/
def stripRatings (ratings : List RatingRow) : List RatingRow :=
  ratings.map (fun r => { r with tconst := r.tconst.map pyStrip })

/-- First left merge of src/process.py lines 88-90: links against the
deduplicated catalog on `tmdbId`. -/
def merged1Of (links : List LinkRow) (meta : MetaTable) : List Merged1 :=
  leftExtend
    (fun l => (dedupMetaRows meta.rows).filter (fun m => m.id == l.tmdbId))
    (mkUnmatched1 meta.genreCols.length) mkMatched1 links

/-- Embedding of `merge_datasets` (src/process.py lines 80-99).  The
first component is the reconciled table; the second is the state of the
caller's `imdb_ratings` argument after the call (mutated in place by
line 94).  The second join key compares the stripped catalog
cross-reference (`merged["imdb_id"].str.strip()`, line 93 — the
temporary `tconst` column, inlined here because it is dropped again at
line 97) with the stripped rating-table key; pandas joins null keys to
null keys, which `Option` equality mirrors. -/
def merge_datasets (links : List LinkRow) (meta : MetaTable)
    (ratings : List RatingRow) : List MergedRow × List RatingRow :=
  (leftExtend
      (fun m1 => (stripRatings ratings).filter
        (fun r => r.tconst == m1.imdb_id.map pyStrip))
      (fun m1 => finalRow m1 none none)
      (fun m1 r => finalRow m1 r.averageRating r.numVotes)
      (merged1Of links meta),
   stripRatings ratings)

/-- Post-state of the normalizer's input table: the function works on
`df[required].copy()` (src/process.py line 44), leaving the caller's
table unchanged. -/
def filter_transform_metadata_inputAfter (df : RawTable) : RawTable := df

/-- Post-state of the expander's input: `one_hot_encode_genres` only
reads its input and builds new frames (src/process.py lines 72-77). -/
def one_hot_encode_genres_inputAfter {α : Type}
    (rows : List (α × List String)) : List (α × List String) := rows

/-- Post-state of the reconciler's link argument: never written. -/
def merge_datasets_linksAfter (links : List LinkRow) : List LinkRow := links

/-- Post-state of the reconciler's catalog argument: line 88 renames on a
copy (`.rename(...).copy()`), never the caller's table. -/
def merge_datasets_metaAfter (meta : MetaTable) : MetaTable := meta

/-- Concrete link table: one row. -/
def cLinks : List LinkRow :=
  [{ movieId := some 1, imdbId := some 100, tmdbId := some 1 }]

/-- Concrete catalog: one row whose `tmdbId` is 1 and whose
cross-reference is `tt1`. -/
def cMeta : MetaTable :=
  { genreCols := []
    rows := [{ id := some 1, imdb_id := some "tt1", title := some "A",
               original_language := some "en", release_date := some 100,
               year := some 1994, runtime := some 142, budget := some 5,
               revenue := some 6, genreVals := [] }] }

/-- Concrete rating table with a DUPLICATED key `tt1`. -/
def cRatings : List RatingRow :=
  [{ tconst := some "tt1", averageRating := some 5, numVotes := some 10 },
   { tconst := some "tt1", averageRating := some 6, numVotes := some 20 }]

/-- Concrete rating table with distinct keys. -/
def cRatingsOne : List RatingRow :=
  [{ tconst := some "tt1", averageRating := some 5, numVotes := some 10 }]

/-- Concrete rating table whose key carries leading whitespace. -/
def c2Ratings : List RatingRow :=
  [{ tconst := some " tt001", averageRating := none, numVotes := none }]

/-- Concrete empty catalog. -/
def cMetaEmpty : MetaTable := { genreCols := [], rows := [] }

/-- Concrete link row referencing catalog id 99 (absent from `cMeta5`). -/
def link5row : LinkRow :=
  { movieId := some 11, imdbId := some 200, tmdbId := some 99 }

/-- Concrete link table for the unmatched-link scenarios. -/
def links5 : List LinkRow := [link5row]

/-- Concrete catalog with one genre column and a single row with id 1. -/
def cMeta5 : MetaTable :=
  { genreCols := ["Drama"]
    rows := [{ id := some 1, imdb_id := some "tt1", title := some "A",
               original_language := some "en", release_date := some 100,
               year := some 1994, runtime := some 142, budget := some 5,
               revenue := some 6, genreVals := [1] }] }

/-- Concrete link row for the whitespace-join scenario. -/
def link6row : LinkRow :=
  { movieId := some 10, imdbId := some 1, tmdbId := some 1 }

/-- Concrete catalog row whose cross-reference has trailing whitespace. -/
def meta6row : MetaRow :=
  { id := some 1, imdb_id := some "tt001 ", title := some "B",
    original_language := some "en", release_date := none, year := none,
    runtime := none, budget := none, revenue := none, genreVals := [] }

/-- Concrete catalog table for the whitespace-join scenario. -/
def cMeta6 : MetaTable := { genreCols := [], rows := [meta6row] }

/-- Concrete rating row whose key has leading whitespace. -/
def rating6row : RatingRow :=
  { tconst := some " tt001", averageRating := some 8, numVotes := some 42 }

/-- First catalog row with duplicated id 1. -/
def meta7a : MetaRow :=
  { id := some 1, imdb_id := some "ttA", title := some "First",
    original_language := some "en", release_date := some 7, year := some 2000,
    runtime := some 90, budget := some 1, revenue := some 2, genreVals := [1, 0] }

/-- Second (duplicate-id) catalog row, entirely different fields. -/
def meta7b : MetaRow :=
  { id := some 1, imdb_id := some "ttB", title := some "Second",
    original_language := some "fr", release_date := some 8, year := some 2001,
    runtime := some 95, budget := some 3, revenue := some 4, genreVals := [0, 1] }

/-- Catalog row with a null id, which must be dropped before joining. -/
def meta7null : MetaRow :=
  { id := none, imdb_id := some "ttC", title := some "Nullid",
    original_language := none, release_date := none, year := none,
    runtime := none, budget := none, revenue := none, genreVals := [0, 0] }

/-- Concrete catalog with a duplicated `tmdbId` and a null-id row. -/
def cMeta7 : MetaTable :=
  { genreCols := ["Crime", "Drama"], rows := [meta7null, meta7a, meta7b] }

/-- Concrete link row matching the duplicated catalog id. -/
def link7row : LinkRow :=
  { movieId := some 3, imdbId := some 9, tmdbId := some 1 }

/-!  Theorems.  -/

/-- C3: for every input value that is not a string, is the empty string,
fails structural parsing, or parses to a value none of whose iterated
elements is a dict with a truthy (non-empty) `name` field, `parse_genres`
returns the empty sequence; totality of the embedding (result type
`List PyVal`, no `Except`) reflects that the bare `except:` prevents any
exception from escaping. -/
theorem parse_genres_malformed_returns_empty
    (lev : String → Except Unit PyVal) (v : PyVal)
    (h : (∀ s, v ≠ .pstr s) ∨ v = .pstr "" ∨
         (∃ s, v = .pstr s ∧ lev s = .error ()) ∨
         (∃ s lst, v = .pstr s ∧ lev s = .ok lst ∧ ∀ d ∈ pyElems lst, goodRec d = false)) :
    parse_genres lev v = [] := by
  rcases h with h | h | ⟨s, rfl, hlev⟩ | ⟨s, lst, rfl, hlev, hrec⟩
  · cases v with
    | pstr s => exact absurd rfl (h s)
    | pnone => rfl
    | pbool b => rfl
    | pint n => rfl
    | plist xs => rfl
    | pdict kvs => rfl
  · subst h; rfl
  · simp only [parse_genres, hlev]
    by_cases hs : s.isEmpty <;> simp [hs]
  · simp only [parse_genres, hlev]
    by_cases hs : s.isEmpty
    · simp [hs]
    · simp only [hs, if_false, Bool.false_eq_true]
      cases hit : pyIter lst with
      | error e => rfl
      | ok ds =>
          apply List.filterMap_eq_nil_iff.mpr
          intro d hd
          have hd' : d ∈ pyElems lst := by
            simp only [pyElems, hit]; exact hd
          have := hrec d hd'
          cases d with
          | pdict kvs =>
              simp only [goodRec] at this
              simp [this]
          | pnone => rfl
          | pbool b => rfl
          | pint n => rfl
          | pstr t => rfl
          | plist xs => rfl

/-- Witness for C3: the non-string input `3` yields the empty list. -/
theorem parse_genres_malformed_returns_empty_witness :
    parse_genres (fun _ => .error ()) (.pint 3) = [] :=
  parse_genres_malformed_returns_empty (fun _ => .error ()) (.pint 3)
    (Or.inl (fun _ hs => PyVal.noConfusion hs))

/-- Totality of the codepoint-lexicographic comparison. -/
lemma pyCharListLe_total : ∀ as bs : List Char,
    pyCharListLe as bs = true ∨ pyCharListLe bs as = true := by
  intro as
  induction as with
  | nil => intro bs; exact Or.inl rfl
  | cons a as ih =>
      intro bs
      cases bs with
      | nil => exact Or.inr rfl
      | cons b bs =>
          simp only [pyCharListLe]
          by_cases hab : a.toNat < b.toNat
          · left; simp [hab]
          · by_cases hba : b.toNat < a.toNat
            · right; simp [hba]
            · rcases ih bs with h | h
              · left; simp [hab, hba, h]
              · right; simp [hab, hba, h]

/-- Transitivity of the codepoint-lexicographic comparison. -/
lemma pyCharListLe_trans : ∀ as bs cs : List Char,
    pyCharListLe as bs = true → pyCharListLe bs cs = true →
    pyCharListLe as cs = true := by
  intro as
  induction as with
  | nil => intro bs cs _ _; rfl
  | cons a as ih =>
      intro bs cs h1 h2
      cases bs with
      | nil => simp [pyCharListLe] at h1
      | cons b bs =>
          cases cs with
          | nil => simp [pyCharListLe] at h2
          | cons c cs =>
              simp only [pyCharListLe] at h1 h2 ⊢
              by_cases hab : a.toNat < b.toNat
              · by_cases hbc : b.toNat < c.toNat
                · simp [Nat.lt_trans hab hbc]
                · by_cases hcb : c.toNat < b.toNat
                  · rw [if_neg hbc, if_pos hcb] at h2; exact absurd h2 (by simp)
                  · have hbceq : b.toNat = c.toNat :=
                      Nat.le_antisymm (Nat.not_lt.mp hcb) (Nat.not_lt.mp hbc)
                    simp [hbceq ▸ hab]
              · by_cases hba : b.toNat < a.toNat
                · rw [if_neg hab, if_pos hba] at h1; exact absurd h1 (by simp)
                · have habeq : a.toNat = b.toNat :=
                    Nat.le_antisymm (Nat.not_lt.mp hba) (Nat.not_lt.mp hab)
                  rw [if_neg hab, if_neg hba] at h1
                  by_cases hbc : b.toNat < c.toNat
                  · simp [habeq ▸ hbc]
                  · by_cases hcb : c.toNat < b.toNat
                    · rw [if_neg hbc, if_pos hcb] at h2; exact absurd h2 (by simp)
                    · rw [if_neg hbc, if_neg hcb] at h2
                      have hac1 : ¬ a.toNat < c.toNat := habeq ▸ hbc
                      have hac2 : ¬ c.toNat < a.toNat := by
                        rw [habeq]; exact hcb
                      rw [if_neg hac1, if_neg hac2]
                      exact ih bs cs h1 h2

/-- Membership in the sorted missing-column list is exactly "required but
absent from the schema". -/
lemma mem_missingCols (df : RawTable) (c : String) :
    c ∈ missingCols df ↔ (c ∈ requiredCols ∧ c ∉ df.cols) := by
  simp [missingCols, List.mem_insertionSort, List.mem_filter]

/-- Empty missing-column list is exactly "every required column present". -/
lemma missingCols_isEmpty_iff (df : RawTable) :
    (missingCols df).isEmpty = true ↔ ∀ c ∈ requiredCols, c ∈ df.cols := by
  rw [List.isEmpty_iff, List.eq_nil_iff_forall_not_mem]
  constructor
  · intro h c hc
    by_contra hx
    exact h c ((mem_missingCols df c).mpr ⟨hc, hx⟩)
  · intro h c hc
    rcases (mem_missingCols df c).mp hc with ⟨h1, h2⟩
    exact h2 (h c h1)

/-- C4: the normalizer fails if and only if at least one of the nine
required columns is absent from the input schema; the raised error names
exactly the missing required columns (and is nonempty), and since the
check precedes all row processing in the `Except` embedding, an error
result means no other processing was performed. -/
theorem normalizer_schema_check (oc : Oracles) (df : RawTable) (movie_ids : List Int) :
    (∀ m, filter_transform_metadata oc df movie_ids = .error m →
        m ≠ [] ∧ ∀ c, c ∈ m ↔ (c ∈ requiredCols ∧ c ∉ df.cols))
    ∧ ((∃ c ∈ requiredCols, c ∉ df.cols) →
        filter_transform_metadata oc df movie_ids = .error (missingCols df))
    ∧ ((∀ c ∈ requiredCols, c ∈ df.cols) →
        ∃ out, filter_transform_metadata oc df movie_ids = .ok out) := by
  refine ⟨?_, ?_, ?_⟩
  · intro m hm
    unfold filter_transform_metadata at hm
    by_cases he : (missingCols df).isEmpty = true
    · simp [he] at hm
    · simp only [he, Bool.false_eq_true, if_false, Except.error.injEq] at hm
      subst hm
      refine ⟨fun hnil => he ?_, fun c => mem_missingCols df c⟩
      rw [hnil]; rfl
  · intro ⟨c, hc, hcx⟩
    have hne : (missingCols df).isEmpty ≠ true := by
      intro he
      exact hcx ((missingCols_isEmpty_iff df).mp he c hc)
    unfold filter_transform_metadata
    simp [hne]
  · intro h
    have he : (missingCols df).isEmpty = true := (missingCols_isEmpty_iff df).mpr h
    unfold filter_transform_metadata
    simp [he]

/-- Witness for C4: on a table whose schema lacks `genres`, the normalizer
raises an error naming exactly `genres`; on a complete schema it
succeeds. -/
theorem normalizer_schema_check_witness :
    (missingCols rawDfMissing ≠ [] ∧
      ∀ c, c ∈ missingCols rawDfMissing ↔ (c ∈ requiredCols ∧ c ∉ rawDfMissing.cols))
    ∧ filter_transform_metadata ocTest rawDfMissing [] = .error (missingCols rawDfMissing) := by
  have h2 := (normalizer_schema_check ocTest rawDfMissing []).2.1
    ⟨"genres", by decide, by decide⟩
  exact ⟨(normalizer_schema_check ocTest rawDfMissing []).1 (missingCols rawDfMissing) h2, h2⟩

/-- C8: whenever the normalizer succeeds, every output row's `id` is a
non-null integer belonging to `movie_ids`, and the number of output rows
is exactly the number of input rows whose coerced `id` is a non-null
member of `movie_ids` — so every row failing coercion or falling outside
the target set is absent, and no surviving row is dropped. -/
theorem normalizer_output_ids (oc : Oracles) (df : RawTable)
    (movie_ids : List Int) (out : List NormRow)
    (h : filter_transform_metadata oc df movie_ids = .ok out) :
    (∀ r ∈ out, ∃ n, r.id = some n ∧ n ∈ movie_ids)
    ∧ out.length = (df.rows.filter (keepRow oc movie_ids)).length := by
  unfold filter_transform_metadata at h
  by_cases he : (missingCols df).isEmpty = true
  · simp only [he, if_true, Except.ok.injEq] at h
    subst h
    constructor
    · intro r hr
      rw [List.mem_insertionSort] at hr
      rcases List.mem_map.mp hr with ⟨row, hrow, rfl⟩
      have hk := (List.mem_filter.mp hrow).2
      unfold keepRow at hk
      cases hid : oc.toNumInt row.id with
      | none => rw [hid] at hk; exact absurd hk (by simp)
      | some n =>
          rw [hid] at hk
          refine ⟨n, ?_, ?_⟩
          · simp [transformRow, hid]
          · simpa using hk
    · rw [List.length_insertionSort, List.length_map]
  · simp [he] at h

/-- Witness for C8: on the concrete table, the surviving row's id is 1 and
lies in the target set, and the output has exactly one row (the
coercion-failing row is gone). -/
theorem normalizer_output_ids_witness :
    (∃ n, (transformRow ocTest rawRowGood).id = some n ∧ n ∈ [(1 : Int)])
    ∧ normOut1.length = (rawDf1.rows.filter (keepRow ocTest [1])).length := by
  have h := normalizer_output_ids ocTest rawDf1 [1] normOut1 rfl
  refine ⟨h.1 (transformRow ocTest rawRowGood) ?_, h.2⟩
  unfold normOut1
  rw [List.mem_insertionSort]
  exact List.mem_map_of_mem (transformRow ocTest)
    (List.mem_filter_of_mem (List.mem_cons_self _ _) (by decide))

/-- C9: a record whose `genre_lst` is empty is not dropped — the output
has one row per input row, and that record's row carries the value `0`
(not null: the indicator type is `Int`, not `Option Int`) in every
indicator column — and the indicator columns are exactly the distinct
genre names of the batch in ascending (Python-sorted) order. -/
theorem expander_empty_list_all_zero {α : Type} (rows : List (α × List String))
    (i : Nat) (a : α) (h : rows[i]? = some (a, [])) :
    (one_hot_encode_genres rows).2.length = rows.length
    ∧ (one_hot_encode_genres rows).2[i]? =
        some (a, List.replicate (one_hot_encode_genres rows).1.length 0)
    ∧ (one_hot_encode_genres rows).1.Nodup
    ∧ List.Pairwise (fun a b => pyStrLe a b = true) (one_hot_encode_genres rows).1
    ∧ (∀ g, g ∈ (one_hot_encode_genres rows).1 ↔ ∃ r ∈ rows, g ∈ r.2) := by
  refine ⟨?_, ?_, ?_, ?_, ?_⟩
  · simp [one_hot_encode_genres]
  · simp only [one_hot_encode_genres]
    rw [List.getElem?_map, h]
    simp [List.map_const]
  · exact ((List.perm_insertionSort _ _).symm.nodup (List.nodup_dedup _))
  · haveI : IsTotal String (fun a b => pyStrLe a b = true) :=
      ⟨fun a b => pyCharListLe_total a.data b.data⟩
    haveI : IsTrans String (fun a b => pyStrLe a b = true) :=
      ⟨fun a b c => pyCharListLe_trans a.data b.data c.data⟩
    exact List.sorted_insertionSort _ _
  · intro g
    simp only [one_hot_encode_genres, mlbClasses, List.mem_insertionSort,
      List.mem_dedup, List.mem_flatten, List.mem_map]
    constructor
    · intro ⟨l, ⟨r, hr, hsnd⟩, hg⟩
      exact ⟨r, hr, by rw [hsnd]; exact hg⟩
    · intro ⟨r, hr, hg⟩
      exact ⟨r.2, ⟨r, hr, rfl⟩, hg⟩

/-- Witness for C9: in the concrete batch, the empty-genre record's output
row is its payload with an all-zero indicator vector. -/
theorem expander_empty_list_all_zero_witness :
    (one_hot_encode_genres expRows).2[1]? =
      some (1, List.replicate (one_hot_encode_genres expRows).1.length 0) :=
  (expander_empty_list_all_zero expRows 1 1 rfl).2.1

/-- Unfolding a left-join step over a cons cell. -/
lemma leftExtend_cons {β γ δ : Type} (matchesOf : β → List γ) (mkNull : β → δ)
    (mkJoin : β → γ → δ) (b : β) (bs : List β) :
    leftExtend matchesOf mkNull mkJoin (b :: bs)
      = (match matchesOf b with
         | [] => [mkNull b]
         | ms => ms.map (mkJoin b)) ++ leftExtend matchesOf mkNull mkJoin bs := by
  simp [leftExtend, List.flatMap_cons]

/-- Length of a left-join step when every left row has at most one
match: the join never multiplies rows, and never drops one. -/
lemma leftExtend_length {β γ δ : Type} (matchesOf : β → List γ)
    (mkNull : β → δ) (mkJoin : β → γ → δ) (bs : List β)
    (h : ∀ b ∈ bs, (matchesOf b).length ≤ 1) :
    (leftExtend matchesOf mkNull mkJoin bs).length = bs.length := by
  induction bs with
  | nil => rfl
  | cons b bs ih =>
      rw [leftExtend_cons, List.length_append,
        ih (fun x hx => h x (List.mem_cons_of_mem b hx))]
      have hb := h b (List.mem_cons_self b bs)
      cases hm : matchesOf b with
      | nil => simp [hm, Nat.add_comm]
      | cons g gs =>
          rw [hm] at hb
          cases gs with
          | nil => simp [hm, Nat.add_comm]
          | cons g2 gs2 => simp at hb

/-- A left row with no match contributes its null-extended row. -/
lemma leftExtend_mem_null {β γ δ : Type} {matchesOf : β → List γ}
    {mkNull : β → δ} {mkJoin : β → γ → δ} {bs : List β} {b : β}
    (hb : b ∈ bs) (hm : matchesOf b = []) :
    mkNull b ∈ leftExtend matchesOf mkNull mkJoin bs := by
  unfold leftExtend
  rw [List.mem_flatMap]
  refine ⟨b, hb, ?_⟩
  rw [hm]
  exact List.mem_singleton_self _

/-- A left row contributes one joined row per right match. -/
lemma leftExtend_mem_join {β γ δ : Type} {matchesOf : β → List γ}
    {mkNull : β → δ} {mkJoin : β → γ → δ} {bs : List β} {b : β} {g : γ}
    (hb : b ∈ bs) (hg : g ∈ matchesOf b) :
    mkJoin b g ∈ leftExtend matchesOf mkNull mkJoin bs := by
  unfold leftExtend
  rw [List.mem_flatMap]
  refine ⟨b, hb, ?_⟩
  cases hm : matchesOf b with
  | nil => rw [hm] at hg; cases hg
  | cons x xs =>
      rw [hm] at hg
      exact List.mem_map_of_mem _ hg

/-- Every left row survives into the output, either null-extended or
joined with some match. -/
lemma leftExtend_mem_exists {β γ δ : Type} {matchesOf : β → List γ}
    {mkNull : β → δ} {mkJoin : β → γ → δ} {bs : List β} {b : β}
    (hb : b ∈ bs) :
    ∃ d ∈ leftExtend matchesOf mkNull mkJoin bs,
      d = mkNull b ∨ ∃ g, d = mkJoin b g := by
  cases hm : matchesOf b with
  | nil => exact ⟨mkNull b, leftExtend_mem_null hb hm, Or.inl rfl⟩
  | cons g gs =>
      refine ⟨mkJoin b g, leftExtend_mem_join hb ?_, Or.inr ⟨g, rfl⟩⟩
      rw [hm]
      exact List.mem_cons_self g gs

/-- A table whose mapped keys are pairwise distinct yields at most one
match for any key value. -/
lemma count_matches_le_one {γ κ : Type} [BEq κ] [LawfulBEq κ] (k : γ → κ)
    (R : List γ) (hnd : (R.map k).Nodup) (x : κ) :
    (R.filter (fun r => k r == x)).length ≤ 1 := by
  induction R with
  | nil => simp
  | cons r R ih =>
      rw [List.map_cons, List.nodup_cons] at hnd
      by_cases hx : k r = x
      · have hnil : R.filter (fun r => k r == x) = [] := by
          apply List.filter_eq_nil_iff.mpr
          intro a ha
          simp only [beq_iff_eq]
          intro hae
          apply hnd.1
          rw [hx.trans hae.symm]
          exact List.mem_map_of_mem k ha
        simp [List.filter_cons, hx, hnil]
      · simp only [List.filter_cons, beq_iff_eq, hx, if_false, decide_eq_true_eq]
        exact ih hnd.2

/-- Rows surviving catalog deduplication come from the input list. -/
lemma dedupMetaAux_subset (rows : List MetaRow) : ∀ (seen : List (Option Int)),
    ∀ r ∈ dedupMetaAux seen rows, r ∈ rows := by
  induction rows with
  | nil => intro seen r hr; simp [dedupMetaAux] at hr
  | cons a rows ih =>
      intro seen r hr
      unfold dedupMetaAux at hr
      by_cases h : a.id ∈ seen
      · rw [if_pos h] at hr
        exact List.mem_cons_of_mem a (ih seen r hr)
      · rw [if_neg h] at hr
        rcases List.mem_cons.mp hr with rfl | hr'
        · exact List.mem_cons_self _ _
        · exact List.mem_cons_of_mem a (ih _ r hr')

/-- No surviving row carries a key that was already seen. -/
lemma dedupMetaAux_id_not_seen (rows : List MetaRow) : ∀ (seen : List (Option Int)),
    ∀ r ∈ dedupMetaAux seen rows, r.id ∉ seen := by
  induction rows with
  | nil => intro seen r hr; simp [dedupMetaAux] at hr
  | cons a rows ih =>
      intro seen r hr
      unfold dedupMetaAux at hr
      by_cases h : a.id ∈ seen
      · rw [if_pos h] at hr
        exact ih seen r hr
      · rw [if_neg h] at hr
        rcases List.mem_cons.mp hr with rfl | hr'
        · exact h
        · intro hseen
          exact (ih (a.id :: seen) r hr') (List.mem_cons_of_mem _ hseen)

/-- Keys of the deduplicated catalog are pairwise distinct. -/
lemma dedupMetaAux_keys_nodup (rows : List MetaRow) : ∀ (seen : List (Option Int)),
    ((dedupMetaAux seen rows).map (fun r => r.id)).Nodup := by
  induction rows with
  | nil => intro seen; simp [dedupMetaAux]
  | cons a rows ih =>
      intro seen
      unfold dedupMetaAux
      by_cases h : a.id ∈ seen
      · rw [if_pos h]; exact ih seen
      · rw [if_neg h]
        rw [List.map_cons, List.nodup_cons]
        refine ⟨?_, ih (a.id :: seen)⟩
        intro hmem
        rcases List.mem_map.mp hmem with ⟨r, hr, hid⟩
        exact (dedupMetaAux_id_not_seen rows (a.id :: seen) r hr)
          (hid ▸ List.mem_cons_self _ _)

/-- If the key is already seen, no surviving row matches it. -/
lemma dedupMetaAux_filter_of_mem_seen (rows : List MetaRow)
    (seen : List (Option Int)) (x : Option Int) (hx : x ∈ seen) :
    (dedupMetaAux seen rows).filter (fun r => r.id == x) = [] := by
  apply List.filter_eq_nil_iff.mpr
  intro r hr
  simp only [beq_iff_eq]
  intro he
  exact (dedupMetaAux_id_not_seen rows seen r hr) (he ▸ hx)

/-- First-seen deduplication keeps, for an unseen key, exactly the first
matching row: later duplicates contribute nothing. -/
lemma dedupMetaAux_filter_key (rows : List MetaRow) :
    ∀ (seen : List (Option Int)) (x : Option Int), x ∉ seen →
    (dedupMetaAux seen rows).filter (fun r => r.id == x)
      = (rows.filter (fun r => r.id == x)).take 1 := by
  induction rows with
  | nil => intro seen x _; rfl
  | cons a rows ih =>
      intro seen x hx
      unfold dedupMetaAux
      by_cases h : a.id ∈ seen
      · rw [if_pos h]
        have hne : ¬ (a.id = x) := fun he => hx (he ▸ h)
        rw [List.filter_cons]
        simp only [beq_iff_eq, hne, if_false, decide_eq_true_eq]
        exact ih seen x hx
      · rw [if_neg h]
        by_cases he : a.id = x
        · subst he
          rw [List.filter_cons, List.filter_cons]
          simp only [beq_self_eq_true, if_true]
          rw [dedupMetaAux_filter_of_mem_seen rows _ _ (List.mem_cons_self _ _)]
          simp
        · rw [List.filter_cons, List.filter_cons]
          simp only [beq_iff_eq, he, if_false, decide_eq_true_eq]
          apply ih (a.id :: seen) x
          intro hmem
          rcases List.mem_cons.mp hmem with h1 | h2
          · exact he h1.symm
          · exact hx h2

/-- Filtering on a non-null key commutes with dropping null-key rows. -/
lemma filter_key_through_isSome (rows : List MetaRow) (k : Int) :
    (rows.filter (fun r => r.id.isSome)).filter (fun r => r.id == some k)
      = rows.filter (fun r => r.id == some k) := by
  induction rows with
  | nil => rfl
  | cons a rows ih =>
      by_cases h : a.id = some k
      · have h1 : a.id.isSome = true := by rw [h]; rfl
        simp [List.filter_cons, h1, h, ih]
      · by_cases h2 : a.id.isSome = true
        · simp [List.filter_cons, h2, h, ih]
        · simp [List.filter_cons, h2, h, ih]

/-- The deduplicated catalog's matches for a key are exactly the first
matching input row. -/
lemma dedupMetaRows_filter_key (rows : List MetaRow) (k : Int) :
    (dedupMetaRows rows).filter (fun r => r.id == some k)
      = (rows.filter (fun r => r.id == some k)).take 1 := by
  unfold dedupMetaRows
  rw [dedupMetaAux_filter_key _ [] (some k) (by simp),
    filter_key_through_isSome]

/-- Null-key catalog rows are dropped before the join. -/
lemma dedupMetaRows_isSome (rows : List MetaRow) :
    ∀ r ∈ dedupMetaRows rows, r.id.isSome := by
  intro r hr
  have hmem := dedupMetaAux_subset _ [] r hr
  exact (List.mem_filter.mp hmem).2

/-- Keys of the prepared catalog are pairwise distinct. -/
lemma dedupMetaRows_keys_nodup (rows : List MetaRow) :
    ((dedupMetaRows rows).map (fun r => r.id)).Nodup :=
  dedupMetaAux_keys_nodup _ []

/-- The first merge produces exactly one row per link row (the prepared
catalog has distinct keys). -/
lemma merged1Of_length (links : List LinkRow) (meta : MetaTable) :
    (merged1Of links meta).length = links.length := by
  apply leftExtend_length
  intro l _
  exact count_matches_le_one (fun m => m.id) (dedupMetaRows meta.rows)
    (dedupMetaRows_keys_nodup meta.rows) l.tmdbId

/-- Every row of the first merge reaches the final output with its link
and catalog fields intact (the second join only appends rating fields). -/
lemma merged1_to_output (links : List LinkRow) (meta : MetaTable)
    (ratings : List RatingRow) (m1 : Merged1)
    (h : m1 ∈ merged1Of links meta) :
    ∃ r ∈ (merge_datasets links meta ratings).1,
      r.movieId = m1.movieId ∧ r.tmdbId = m1.tmdbId ∧ r.imdbId = m1.imdb_id ∧
      r.title = m1.title ∧ r.original_language = m1.original_language ∧
      r.release_date = m1.release_date ∧ r.year = m1.year ∧
      r.runtime = m1.runtime ∧ r.budget = m1.budget ∧
      r.revenue = m1.revenue ∧ r.genreVals = m1.genreVals := by
  rcases @leftExtend_mem_exists Merged1 RatingRow MergedRow
      (fun x => (stripRatings ratings).filter
        (fun r => r.tconst == x.imdb_id.map pyStrip))
      (fun x => finalRow x none none)
      (fun x r => finalRow x r.averageRating r.numVotes)
      (merged1Of links meta) m1 h with ⟨d, hd, hcase⟩
  refine ⟨d, hd, ?_⟩
  rcases hcase with rfl | ⟨g, rfl⟩ <;> simp [finalRow]

/-- C5: a link row whose external catalog id has no match in the
deduplicated catalog yields an output row carrying null — `none`, not a
zero or an empty string — in every catalog-derived field, including every
one of the table's genre indicator cells. -/
theorem unmatched_link_null_catalog_fields (links : List LinkRow)
    (meta : MetaTable) (ratings : List RatingRow) (l : LinkRow)
    (hl : l ∈ links)
    (hnm : ∀ m ∈ dedupMetaRows meta.rows, ¬ (m.id = l.tmdbId)) :
    ∃ r ∈ (merge_datasets links meta ratings).1,
      r.movieId = l.movieId ∧ r.tmdbId = l.tmdbId ∧ r.imdbId = none ∧
      r.title = none ∧ r.original_language = none ∧ r.release_date = none ∧
      r.year = none ∧ r.runtime = none ∧ r.budget = none ∧
      r.revenue = none ∧
      r.genreVals = List.replicate meta.genreCols.length none := by
  have hfil : (dedupMetaRows meta.rows).filter (fun m => m.id == l.tmdbId) = [] :=
    List.filter_eq_nil_iff.mpr (fun m hm => by simpa using hnm m hm)
  have hm1 : mkUnmatched1 meta.genreCols.length l ∈ merged1Of links meta :=
    leftExtend_mem_null hl hfil
  rcases merged1_to_output links meta ratings _ hm1 with ⟨r, hr, hf⟩
  exact ⟨r, hr, by simpa [mkUnmatched1] using hf⟩

/-- Witness for C5: the concrete link referencing absent catalog id 99
survives with all catalog fields null, including the genre indicator. -/
theorem unmatched_link_null_catalog_fields_witness :
    ∃ r ∈ (merge_datasets links5 cMeta5 cRatingsOne).1,
      r.movieId = link5row.movieId ∧ r.tmdbId = link5row.tmdbId ∧
      r.imdbId = none ∧ r.title = none ∧ r.original_language = none ∧
      r.release_date = none ∧ r.year = none ∧ r.runtime = none ∧
      r.budget = none ∧ r.revenue = none ∧
      r.genreVals = List.replicate cMeta5.genreCols.length none :=
  unmatched_link_null_catalog_fields links5 cMeta5 cRatingsOne link5row
    (by decide) (by decide)

/-- C10: for a link row with no catalog match, the published `imdbId` of
its reconciled row is null even though the link row itself carried a
non-null `imdbId` — the link table's own `imdbId` column is dropped
(line 97), and the published `imdbId` is solely the catalog's `imdb_id`
(renamed at line 98). -/
theorem unmatched_link_published_imdbId_null (links : List LinkRow)
    (meta : MetaTable) (ratings : List RatingRow) (l : LinkRow) (v : Int)
    (hl : l ∈ links) (_hv : l.imdbId = some v)
    (hnm : ∀ m ∈ dedupMetaRows meta.rows, ¬ (m.id = l.tmdbId)) :
    ∃ r ∈ (merge_datasets links meta ratings).1,
      r.movieId = l.movieId ∧ r.tmdbId = l.tmdbId ∧ r.imdbId = none := by
  have hfil : (dedupMetaRows meta.rows).filter (fun m => m.id == l.tmdbId) = [] :=
    List.filter_eq_nil_iff.mpr (fun m hm => by simpa using hnm m hm)
  have hm1 : mkUnmatched1 meta.genreCols.length l ∈ merged1Of links meta :=
    leftExtend_mem_null hl hfil
  rcases merged1_to_output links meta ratings _ hm1 with ⟨r, hr, hf⟩
  refine ⟨r, hr, ?_, ?_, ?_⟩
  · exact hf.1
  · exact hf.2.1
  · exact hf.2.2.1

/-- Witness for C10: the concrete unmatched link carries `imdbId = 200`,
yet its output row publishes a null `imdbId`. -/
theorem unmatched_link_published_imdbId_null_witness :
    ∃ r ∈ (merge_datasets links5 cMeta5 cRatingsOne).1,
      r.movieId = link5row.movieId ∧ r.tmdbId = link5row.tmdbId ∧
      r.imdbId = none :=
  unmatched_link_published_imdbId_null links5 cMeta5 cRatingsOne link5row 200
    (by decide) (by decide) (by decide)

/-- C6: both sides of the second join key are whitespace-stripped (lines
93-94), so a catalog cross-reference and a rating-source key that agree
after trimming — for example "tt001 " and " tt001" — join successfully:
the link row's output carries that rating row's fields. -/
theorem trimmed_keys_join (links : List LinkRow) (meta : MetaTable)
    (ratings : List RatingRow) (l : LinkRow) (m : MetaRow) (rr : RatingRow)
    (s1 s2 : String)
    (hl : l ∈ links) (hm : m ∈ dedupMetaRows meta.rows)
    (hkey : m.id = l.tmdbId) (hs1 : m.imdb_id = some s1)
    (hrr : rr ∈ ratings) (hs2 : rr.tconst = some s2)
    (htrim : pyStrip s1 = pyStrip s2) :
    ∃ r ∈ (merge_datasets links meta ratings).1,
      r.movieId = l.movieId ∧ r.imdbId = some s1 ∧
      r.imdb_averageRating = rr.averageRating ∧
      r.imdb_numVotes = rr.numVotes := by
  have hm1 : mkMatched1 l m ∈ merged1Of links meta :=
    leftExtend_mem_join hl (List.mem_filter.mpr ⟨hm, by simp [hkey]⟩)
  have hrr2 : ({ rr with tconst := rr.tconst.map pyStrip } : RatingRow)
      ∈ stripRatings ratings := List.mem_map_of_mem _ hrr
  have hkey2 : (({ rr with tconst := rr.tconst.map pyStrip } : RatingRow).tconst
      == (mkMatched1 l m).imdb_id.map pyStrip) = true := by
    simp [mkMatched1, hs1, hs2, htrim]
  have hout : finalRow (mkMatched1 l m)
      ({ rr with tconst := rr.tconst.map pyStrip } : RatingRow).averageRating
      ({ rr with tconst := rr.tconst.map pyStrip } : RatingRow).numVotes
      ∈ (merge_datasets links meta ratings).1 :=
    leftExtend_mem_join hm1 (List.mem_filter.mpr ⟨hrr2, hkey2⟩)
  exact ⟨_, hout, by simp [finalRow, mkMatched1, hs1]⟩

/-- Witness for C6: keys "tt001 " (catalog) and " tt001" (rating source)
join after trimming, carrying rating 8 and 42 votes onto the link. -/
theorem trimmed_keys_join_witness :
    ∃ r ∈ (merge_datasets [link6row] cMeta6 [rating6row]).1,
      r.movieId = link6row.movieId ∧ r.imdbId = some "tt001 " ∧
      r.imdb_averageRating = rating6row.averageRating ∧
      r.imdb_numVotes = rating6row.numVotes :=
  trimmed_keys_join [link6row] cMeta6 [rating6row] link6row meta6row
    rating6row "tt001 " " tt001" (by decide) (by decide) (by decide)
    (by decide) (by decide) (by decide) (by decide)

/-- C7: when the catalog contains several rows sharing an external id,
the join sees exactly the first-occurring such row — the deduplicated
catalog's matches for that key are the one-element prefix of the input's
matches, so every later duplicate contributes nothing; rows with a null
external id are dropped before the join; and a link with that key gets an
output row carrying the first row's fields in their entirety. -/
theorem catalog_dup_first_wins (links : List LinkRow) (meta : MetaTable)
    (ratings : List RatingRow) (l : LinkRow) (k : Int)
    (first : MetaRow) (rest : List MetaRow)
    (hl : l ∈ links) (hkey : l.tmdbId = some k)
    (hfirst : meta.rows.filter (fun m => m.id == some k) = first :: rest) :
    (dedupMetaRows meta.rows).filter (fun m => m.id == some k) = [first]
    ∧ (∀ m ∈ dedupMetaRows meta.rows, m.id.isSome)
    ∧ ∃ r ∈ (merge_datasets links meta ratings).1,
        r.movieId = l.movieId ∧ r.imdbId = first.imdb_id ∧
        r.title = first.title ∧
        r.original_language = first.original_language ∧
        r.release_date = first.release_date ∧ r.year = first.year ∧
        r.runtime = first.runtime ∧ r.budget = first.budget ∧
        r.revenue = first.revenue ∧
        r.genreVals = first.genreVals.map some := by
  have hA : (dedupMetaRows meta.rows).filter (fun m => m.id == some k) = [first] := by
    rw [dedupMetaRows_filter_key, hfirst]
    simp
  refine ⟨hA, dedupMetaRows_isSome meta.rows, ?_⟩
  have hmem : first ∈ (dedupMetaRows meta.rows).filter (fun m => m.id == l.tmdbId) := by
    rw [hkey, hA]
    exact List.mem_singleton_self _
  have hm1 : mkMatched1 l first ∈ merged1Of links meta :=
    leftExtend_mem_join hl hmem
  rcases merged1_to_output links meta ratings _ hm1 with ⟨r, hr, hf⟩
  obtain ⟨f1, _, f3, f4, f5, f6, f7, f8, f9, f10, f11⟩ :
      r.movieId = l.movieId ∧ r.tmdbId = l.tmdbId ∧
      r.imdbId = first.imdb_id ∧ r.title = first.title ∧
      r.original_language = first.original_language ∧
      r.release_date = first.release_date ∧ r.year = first.year ∧
      r.runtime = first.runtime ∧ r.budget = first.budget ∧
      r.revenue = first.revenue ∧ r.genreVals = first.genreVals.map some := by
    simpa [mkMatched1] using hf
  exact ⟨r, hr, f1, f3, f4, f5, f6, f7, f8, f9, f10, f11⟩

/-- Witness for C7: with two catalog rows sharing id 1 (and a null-id
row), the join sees only the first; the link's output row carries the
first row's title "First" and its indicator values. -/
theorem catalog_dup_first_wins_witness :
    (dedupMetaRows cMeta7.rows).filter (fun m => m.id == some 1) = [meta7a]
    ∧ ((meta7a : MetaRow).id).isSome
    ∧ ∃ r ∈ (merge_datasets [link7row] cMeta7 cRatingsOne).1,
        r.movieId = link7row.movieId ∧ r.imdbId = meta7a.imdb_id ∧
        r.title = meta7a.title ∧
        r.original_language = meta7a.original_language ∧
        r.release_date = meta7a.release_date ∧ r.year = meta7a.year ∧
        r.runtime = meta7a.runtime ∧ r.budget = meta7a.budget ∧
        r.revenue = meta7a.revenue ∧
        r.genreVals = meta7a.genreVals.map some := by
  have h := catalog_dup_first_wins [link7row] cMeta7 cRatingsOne link7row 1
    meta7a [meta7b] (by decide) (by decide) (by decide)
  exact ⟨h.1, h.2.1 meta7a (by decide), h.2.2⟩

/-- C1 counterexample: with a singleton (already exact-row-deduplicated)
link table, a clean catalog, and a rating-source table whose key `tt1`
appears twice, the reconciled output has 2 rows while the deduplicated
link table has 1 distinct internal id — the claimed cardinality equality
fails, because `merge_datasets` never deduplicates the rating table. -/
theorem reconcile_row_count_cx :
    ¬ ((merge_datasets (dropDuplicateRows cLinks) cMeta cRatings).1.length
        = ((dropDuplicateRows cLinks).map (fun l => l.movieId)).dedup.length) := by
  decide

/-- C1 (amended): provided the stripped rating-source keys are pairwise
distinct and the deduplicated link table has pairwise-distinct internal
ids, the reconciled output has exactly one row per distinct internal item
id of the deduplicated link table — with no assumption on the catalog, so
catalog duplicates never multiply rows. -/
theorem reconcile_row_count (links : List LinkRow) (meta : MetaTable)
    (ratings : List RatingRow)
    (h1 : ((dropDuplicateRows links).map (fun l => l.movieId)).Nodup)
    (h2 : ((stripRatings ratings).map (fun r => r.tconst)).Nodup) :
    (merge_datasets (dropDuplicateRows links) meta ratings).1.length
      = ((dropDuplicateRows links).map (fun l => l.movieId)).dedup.length := by
  have h2len : (merge_datasets (dropDuplicateRows links) meta ratings).1.length
      = (merged1Of (dropDuplicateRows links) meta).length := by
    apply leftExtend_length
    intro m1 _
    exact count_matches_le_one (fun r => r.tconst) (stripRatings ratings) h2
      (m1.imdb_id.map pyStrip)
  rw [h2len, merged1Of_length, List.dedup_eq_self.mpr h1, List.length_map]

/-- Witness for C1 (amended): on the concrete clean inputs the output has
exactly one row per distinct internal id. -/
theorem reconcile_row_count_witness :
    ((dropDuplicateRows cLinks).map (fun l => l.movieId)).Nodup
    ∧ ((stripRatings cRatingsOne).map (fun r => r.tconst)).Nodup
    ∧ (merge_datasets (dropDuplicateRows cLinks) cMeta cRatingsOne).1.length
        = ((dropDuplicateRows cLinks).map (fun l => l.movieId)).dedup.length :=
  ⟨by decide, by decide,
    reconcile_row_count cLinks cMeta cRatingsOne (by decide) (by decide)⟩

/-- C2 counterexample: `merge_datasets` mutates its rating-table argument
in place (src/process.py line 94 assigns the stripped key column back
onto the caller's frame): after the call on a table whose key is
" tt001", the caller's table no longer equals its original value. -/
theorem reconciler_mutates_ratings_cx :
    ¬ ((merge_datasets [] cMetaEmpty c2Ratings).2 = c2Ratings) := by
  decide

/-- C2 (amended): the normalizer and the expander leave their inputs
unchanged, and the reconciler leaves its link and catalog arguments
unchanged; but the reconciler overwrites the rating table's key column
with its stripped value, so that table is unchanged only when every
non-null key is already free of surrounding whitespace. -/
theorem pipeline_stage_mutation {α : Type} (df : RawTable)
    (rows : List (α × List String)) (links : List LinkRow)
    (meta : MetaTable) (ratings : List RatingRow) :
    filter_transform_metadata_inputAfter df = df
    ∧ one_hot_encode_genres_inputAfter rows = rows
    ∧ merge_datasets_linksAfter links = links
    ∧ merge_datasets_metaAfter meta = meta
    ∧ (merge_datasets links meta ratings).2 = stripRatings ratings
    ∧ ((∀ r ∈ ratings, r.tconst.map pyStrip = r.tconst) →
        (merge_datasets links meta ratings).2 = ratings) := by
  refine ⟨rfl, rfl, rfl, rfl, rfl, ?_⟩
  intro h
  show stripRatings ratings = ratings
  unfold stripRatings
  induction ratings with
  | nil => rfl
  | cons r rs ih =>
      rw [List.map_cons]
      have hr := h r (List.mem_cons_self r rs)
      have hrest := ih (fun x hx => h x (List.mem_cons_of_mem r hx))
      rw [hrest]
      cases r with
      | mk t a n => simpa using hr

/-- Witness for C2 (amended): on the already-trimmed concrete rating
table, the reconciler leaves its rating argument unchanged. -/
theorem pipeline_stage_mutation_witness :
    filter_transform_metadata_inputAfter rawDf1 = rawDf1
    ∧ (merge_datasets cLinks cMeta cRatingsOne).2 = cRatingsOne := by
  have h := @pipeline_stage_mutation Unit rawDf1 [] cLinks cMeta cRatingsOne
  exact ⟨h.1, h.2.2.2.2.2 (by decide)⟩
